import Mathlib

/-!
Shallow embedding of the artifacts-server game-bot core
(`src/gameBot.ts`, `src/botManager.ts`, `src/apiClient.ts`, `src/types/index.ts`).

JavaScript numbers are modelled as `Int` (all quantities, HP values and epoch
milliseconds in this program are integral); the HP percentage, which the source
computes with `/`, is modelled in `Rat`; the crafting-cycle progress
`Math.floor((currentStep/totalSteps)*100)`, whose binary64 rounding is
observable in the published values, is modelled bit-exactly over integers
(`jsProgress`).  JavaScript `Map`s are modelled as
association lists with `Map.set`/`Map.get` semantics (`jsMapSet` replaces an
existing key in place and appends a fresh one, as the JS insertion-order map
does).  Remote calls are modelled by oracles: a response's cooldown expiration
is an `Option Int`, and a call that may throw is driven by a `Bool` input.
-/

set_option linter.unusedVariables false

namespace Artifacts

/-- Integer map coordinate (src/types/index.ts `Position`). -/
structure Position where
  x : Int
  y : Int
deriving DecidableEq, Repr

/-- An item code with a quantity (src/types/index.ts `Item`). -/
structure Item where
  code : String
  quantity : Int
deriving DecidableEq, Repr

/-- One inventory slot: optional item code and a quantity
(src/types/index.ts `InventorySlot`). -/
structure InventorySlot where
  code : Option String
  quantity : Int
deriving DecidableEq, Repr

/-- The per-loop-iteration character snapshot (src/types/index.ts `Character`). -/
structure Character where
  name : String
  hp : Int
  max_hp : Int
  x : Int
  y : Int
  inventory : List InventorySlot
deriving DecidableEq, Repr

/-! ### JavaScript `Map` model (association lists) -/

/-- Lookup in a JS `Map` (`m.get(k)`), `none` when absent. -/
def jsMapGet {α : Type} (m : List (String × α)) (k : String) : Option α :=
  (m.find? (fun p => p.1 = k)).map (fun p => p.2)

/-- `m.set(k, v)`: replace the value of an existing key in place, otherwise
append the new entry, as the JS insertion-order `Map` does. -/
def jsMapSet {α : Type} (m : List (String × α)) (k : String) (v : α) :
    List (String × α) :=
  if (m.find? (fun p => p.1 = k)).isSome then
    m.map (fun p => if p.1 = k then (k, v) else p)
  else
    m ++ [(k, v)]

/-- `m.delete(k)`. -/
def jsMapDelete {α : Type} (m : List (String × α)) (k : String) :
    List (String × α) :=
  m.filter (fun p => p.1 ≠ k)

/-- `new Map([...a, ...b])`: every entry of `b` is set over `a`. -/
def jsMapUnion {α : Type} (a b : List (String × α)) : List (String × α) :=
  b.foldl (fun acc p => jsMapSet acc p.1 p.2) a

/-- Number of entries stored under a key (a well-formed JS `Map` holds at
most one). -/
def jsMapCount {α : Type} (m : List (String × α)) (k : String) : Nat :=
  (m.filter (fun p => p.1 = k)).length

/-! ### Cooldown discipline (src/gameBot.ts `handleCooldown`,
src/apiClient.ts `depositAll` / `withdrawAll`) -/

/-- `handleCooldown`: given the current instant and the stored cooldown
expiration (epoch ms), the instant at which the agent resumes.  The source
computes `waitTime = expiration - now` and, only when it is positive, awaits
`waitTime + 500` ms; otherwise it returns immediately. -/
def handleCooldown (now : Int) (currentCooldown : Option Int) : Int :=
  match currentCooldown with
  | none => now
  | some expiration =>
      if expiration - now > 0 then now + ((expiration - now) + 500) else now

/-- Issue instant of the `i`-th deposit inside `APIClient.depositAll`
(identically `withdrawAll`): the source awaits each call and then a fixed
3500 ms; it never reads the response, so the cooldown oracle `resp`
(the expiration carried by each response) is ignored.  Each remote call is
modelled as instantaneous. -/
def depositAllIssueTime (start : Int) (resp : Nat → Option Int) : Nat → Int
  | 0 => start
  | n + 1 => depositAllIssueTime start resp n + 3500

/-! ### Manager activity log (src/botManager.ts) -/

/-- A manager log entry (src/botManager.ts `LogEntry`); the wall-clock
timestamp string is outside the model and omitted. -/
structure LogEntry where
  characterName : String
  message : String
deriving DecidableEq, Repr

/-- `MAX_LOGS` (src/botManager.ts line 18). -/
def MAX_LOGS : Nat := 1000

/-- `addLog`: `unshift` the entry, then truncate to the first `MAX_LOGS`
entries when the length exceeds the cap. -/
def addLog (logs : List LogEntry) (l : LogEntry) : List LogEntry :=
  let logs2 := l :: logs
  if logs2.length > MAX_LOGS then logs2.take MAX_LOGS else logs2

/-! ### Rest policy (src/gameBot.ts `rest`) -/

/-- `hpPercent = (character.hp / character.max_hp) * 100`, in exact rational
arithmetic. -/
def hpPercent (c : Character) : Rat :=
  ((c.hp : Rat) / (c.max_hp : Rat)) * 100

/-- The `needsRest` condition of `GameBot.rest`: below 50% HP for the
`fight` action type, below 30% for `gather`, never otherwise. -/
def needsRest (actionType : String) (c : Character) : Bool :=
  (actionType = "fight" && decide (hpPercent c < 50)) ||
  (actionType = "gather" && decide (hpPercent c < 30))

/-! ### Status model (src/types/index.ts `BotStatus` / `CraftingStats`,
src/gameBot.ts `updateStatus` / `updateCraftingStats`) -/

/-- src/types/index.ts `CraftingStats`. -/
structure CraftingStats where
  itemsCrafted : List (String × Int)
  totalCrafts : Int
  failedCrafts : Int
  currentCycle : Option String
  cycleProgress : Int
  materialsUsed : List (String × Int)
deriving DecidableEq, Repr

/-- The `CraftingStats` fallback literal of `updateCraftingStats`
(src/gameBot.ts lines 80-87), also the initial value (lines 28-35). -/
def emptyCraftingStats : CraftingStats :=
  ⟨[], 0, 0, none, 0, []⟩

/-- src/types/index.ts `BotStatus`.  The optional `currentHp`/`maxHp` fields
are modelled as plain integers (the agent only ever writes numbers there);
`craftingStats` keeps its optionality, which `updateCraftingStats` branches
on. -/
structure BotStatusV where
  isRunning : Bool
  lastAction : String
  totalActions : Int
  totalXp : Int
  totalGold : Int
  itemsCollected : List (String × Int)
  currentHp : Int
  maxHp : Int
  craftingStats : Option CraftingStats
deriving DecidableEq, Repr

/-- The initial `this.status` literal of `GameBot` (src/gameBot.ts
lines 19-36). -/
def initialStatus : BotStatusV :=
  ⟨false, "", 0, 0, 0, [], 0, 0, some emptyCraftingStats⟩

/-- A `Partial<BotStatus>` argument to `updateStatus`: present fields
override. -/
structure PartialStatus where
  isRunning : Option Bool
  lastAction : Option String
  totalActions : Option Int
  totalXp : Option Int
  totalGold : Option Int
  itemsCollected : Option (List (String × Int))
  currentHp : Option Int
  maxHp : Option Int
  craftingStats : Option CraftingStats
deriving DecidableEq, Repr

/-- The all-absent `Partial<BotStatus>`. -/
def noStatusUpdates : PartialStatus :=
  ⟨none, none, none, none, none, none, none, none, none⟩

/-- The spread `{ ...status, ...updates }` computed by `updateStatus`
(src/gameBot.ts line 75). -/
def mergeStatus (s : BotStatusV) (u : PartialStatus) : BotStatusV where
  isRunning := u.isRunning.getD s.isRunning
  lastAction := u.lastAction.getD s.lastAction
  totalActions := u.totalActions.getD s.totalActions
  totalXp := u.totalXp.getD s.totalXp
  totalGold := u.totalGold.getD s.totalGold
  itemsCollected := u.itemsCollected.getD s.itemsCollected
  currentHp := u.currentHp.getD s.currentHp
  maxHp := u.maxHp.getD s.maxHp
  craftingStats := match u.craftingStats with
    | none => s.craftingStats
    | some c => some c

/-- A `Partial<CraftingStats>` argument to `updateCraftingStats`. -/
structure PartialCraftingStats where
  itemsCrafted : Option (List (String × Int))
  totalCrafts : Option Int
  failedCrafts : Option Int
  currentCycle : Option (Option String)
  cycleProgress : Option Int
  materialsUsed : Option (List (String × Int))
deriving DecidableEq, Repr

/-- The all-absent `Partial<CraftingStats>`. -/
def noCraftingUpdates : PartialCraftingStats :=
  ⟨none, none, none, none, none, none⟩

/-- The merged stats value built by `updateCraftingStats` (src/gameBot.ts
lines 89-100): scalar fields are spread-overridden, while the two maps are
rebuilt as `new Map([...current, ...update])`. -/
def mergeCraftingStats (cur : CraftingStats) (u : PartialCraftingStats) :
    CraftingStats where
  itemsCrafted := jsMapUnion cur.itemsCrafted (u.itemsCrafted.getD [])
  totalCrafts := u.totalCrafts.getD cur.totalCrafts
  failedCrafts := u.failedCrafts.getD cur.failedCrafts
  currentCycle := u.currentCycle.getD cur.currentCycle
  cycleProgress := u.cycleProgress.getD cur.cycleProgress
  materialsUsed := jsMapUnion cur.materialsUsed (u.materialsUsed.getD [])

/-- The value-level effect of `updateCraftingStats` on the status: the
current stats (or the fallback literal) merged with the update, written back
into the `craftingStats` field. -/
def applyCraftingStats (s : BotStatusV) (u : PartialCraftingStats) : BotStatusV :=
  { s with
    craftingStats :=
      some (mergeCraftingStats (s.craftingStats.getD emptyCraftingStats) u) }

/-! ### Fight / gather result processing (src/gameBot.ts
`processFightResults`, `processGatherResults`) -/

/-- The `data.fight` payload of a fight response. -/
structure FightInfo where
  xp : Int
  gold : Int
  drops : Option (List Item)
deriving DecidableEq, Repr

/-- The `data.details` payload of a gather response. -/
structure GatherInfo where
  xp : Int
  items : Option (List Item)
deriving DecidableEq, Repr

/-- The fold both result processors run over the listed items:
`current = map.get(code) || 0; map.set(code, current + quantity)`. -/
def foldItems (m : List (String × Int)) (items : List Item) :
    List (String × Int) :=
  items.foldl (fun acc it => jsMapSet acc it.code ((jsMapGet acc it.code).getD 0 + it.quantity)) m

/-- `processFightResults` (src/gameBot.ts lines 116-146).  The source folds
the drops into a local copy of `itemsCollected` that is consulted only to
build the log's drop summary (see `fightSummaryItems`); the `updateStatus`
call then passes `new Map(this.status.itemsCollected)` — a fresh copy of the
unmodified field — so the published status below carries `st.itemsCollected`
unchanged, exactly as the source does. -/
def processFightResults (st : BotStatusV) (fight : Option FightInfo) : BotStatusV :=
  match fight with
  | none => st
  | some f =>
      mergeStatus st
        { noStatusUpdates with
          totalActions := some (st.totalActions + 1)
          totalXp := some (st.totalXp + f.xp)
          totalGold := some (st.totalGold + f.gold)
          itemsCollected := some st.itemsCollected }

/-- The local `itemsCollected` map `processFightResults` builds for the log's
drop summary and then discards. -/
def fightSummaryItems (st : BotStatusV) (f : FightInfo) : List (String × Int) :=
  match f.drops with
  | none => st.itemsCollected
  | some ds => foldItems st.itemsCollected ds

/-- `processGatherResults` (src/gameBot.ts lines 147-171); the same discarded
local fold as in `processFightResults` (see `gatherSummaryItems`). -/
def processGatherResults (st : BotStatusV) (details : Option GatherInfo) : BotStatusV :=
  match details with
  | none => st
  | some d =>
      mergeStatus st
        { noStatusUpdates with
          totalActions := some (st.totalActions + 1)
          totalXp := some (st.totalXp + d.xp)
          itemsCollected := some st.itemsCollected }

/-- The local map `processGatherResults` builds for its log summary and then
discards. -/
def gatherSummaryItems (st : BotStatusV) (d : GatherInfo) : List (String × Int) :=
  match d.items with
  | none => st.itemsCollected
  | some its => foldItems st.itemsCollected its

/-! ### API actions and the main control loop (src/gameBot.ts `start`,
`move`, `moveToBank`, `depositItems`, `moveToResource`, `performMainAction`) -/

/-- A remote game-API call issued by the agent. -/
inductive GAction where
  | restA
  | moveA (p : Position)
  | fightA
  | gatherA
  | depositA (code : String) (quantity : Int)
  | withdrawA (code : String) (quantity : Int)
  | craftA (code : String) (quantity : Int)
deriving DecidableEq, Repr

/-- `GameBot.CRAFTING_LOCATIONS` (src/gameBot.ts lines 50-59). -/
def CRAFTING_LOCATIONS : String → Option Position
  | "bank" => some ⟨4, 1⟩
  | "woodcutting" => some ⟨-2, -3⟩
  | "mining" => some ⟨1, 5⟩
  | "jewelry" => some ⟨1, 3⟩
  | "gearcrafting" => some ⟨3, 1⟩
  | "weaponcrafting" => some ⟨2, 1⟩
  | "cooking" => some ⟨1, 1⟩
  | "alchemy" => some ⟨2, 3⟩
  | _ => none

/-- `CRAFTING_LOCATIONS.bank`, the target of `moveToBank`. -/
def bankPosition : Position := ⟨4, 1⟩

/-- `GameBot.RESOURCE_POSITIONS` (src/gameBot.ts lines 38-48). -/
def RESOURCE_POSITIONS : String → Option Position
  | "copper" => some ⟨2, 0⟩
  | "ash_tree" => some ⟨-1, 0⟩
  | "sunflower" => some ⟨2, 2⟩
  | "gudgeon" => some ⟨4, 2⟩
  | "iron" => some ⟨1, 7⟩
  | "spruce_tree" => some ⟨2, 6⟩
  | "shrimp" => some ⟨5, 2⟩
  | "birch_tree" => some ⟨3, 5⟩
  | "coal" => some ⟨1, 6⟩
  | _ => none

/-- The calls issued by `GameBot.move`: a no-op when the character already
stands on the target, otherwise one move call. -/
def moveActions (c : Character) (target : Position) : List GAction :=
  if c.x = target.x ∧ c.y = target.y then [] else [GAction.moveA target]

/-- `character.inventory.reduce((total, slot) => total + slot.quantity, 0)`. -/
def inventoryTotal (c : Character) : Int :=
  c.inventory.foldl (fun total slot => total + slot.quantity) 0

/-- JS truthiness of an optional string: `null`/`undefined` and `""` are
falsy. -/
def jsStrFalsy : Option String → Bool
  | none => true
  | some s => s = ""

/-- JS truthiness of an optional number: `null`/`undefined` and `0` are
falsy. -/
def jsNumFalsy : Option Int → Bool
  | none => true
  | some q => q = 0

/-- The deposit calls issued by `depositItems` via `api.depositAll`: one per
inventory slot with a truthy code and positive quantity. -/
def depositItemsActions (c : Character) : List GAction :=
  (c.inventory.filter (fun slot => !jsStrFalsy slot.code && decide (slot.quantity > 0))).map
    (fun slot => GAction.depositA (slot.code.getD "") slot.quantity)

/-- The rest call issued by `GameBot.rest` when the policy triggers. -/
def restActions (actionType : String) (c : Character) : List GAction :=
  if needsRest actionType c then [GAction.restA] else []

/-- src/types/index.ts `CraftingStep`.  The `type` field is kept as a string
because the interpreter's `default` branch handles unrecognized kinds. -/
structure CraftingStep where
  type : String
  item : Option String
  quantity : Option Int
  location : Option String
  position : Option Position
deriving DecidableEq, Repr

/-- src/types/index.ts `CraftingCycle` (the optional metadata fields carry no
behavior). -/
structure CraftingCycleV where
  id : String
  name : String
  steps : List CraftingStep
deriving DecidableEq, Repr

/-- src/types/index.ts `BotConfig`. -/
structure BotConfigV where
  apiToken : String
  characterName : String
  actionType : String
  resource : Option String
  craftingCycle : Option CraftingCycleV
  fightLocation : Option Position
  selectedMonster : Option String
  monsterSkin : Option String
deriving DecidableEq, Repr

/-- The calls of `performMainAction` for the `fight` kind (src/gameBot.ts
lines 382-422): with a configured fight location and selected monster, the
monster position is resolved through the external `MonsterService` (modelled
by the `monsterPos` oracle); an unresolved monster logs an error and returns
without fighting. -/
def mainFightActions (cfg : BotConfigV) (monsterPos : Option Position)
    (c : Character) : List GAction :=
  if cfg.fightLocation.isSome then
    if cfg.selectedMonster.isSome then
      match monsterPos with
      | some p => moveActions c p ++ [GAction.fightA]
      | none => []
    else [GAction.fightA]
  else [GAction.fightA]

/-- The calls of the `gather` kind: `moveToResource` (which throws on an
unknown resource code, aborting the iteration) followed by the gather call of
`performMainAction`. -/
def mainGatherActions (cfg : BotConfigV) (c : Character) : List GAction :=
  match cfg.resource with
  | none => [GAction.gatherA]
  | some r =>
      match RESOURCE_POSITIONS r with
      | none => []
      | some p => moveActions c p ++ [GAction.gatherA]

/-- The remote calls of one iteration of `GameBot.start`'s loop for a found
character (src/gameBot.ts lines 431-481): the rest policy runs first, then
the action-kind switch; for `fight`/`gather`, a summed inventory of at least
100 preempts the main action with a bank move plus full deposit.  The
`craft` branch delegates to the crafting-cycle interpreter, modelled
separately by `cycleIter`/`cycleLoop`. -/
def loopIterActions (cfg : BotConfigV) (monsterPos : Option Position)
    (c : Character) : List GAction :=
  restActions cfg.actionType c ++
    (if cfg.actionType = "craft" then
      []
    else if cfg.actionType = "fight" ∨ cfg.actionType = "gather" then
      if inventoryTotal c ≥ 100 then
        moveActions c bankPosition ++ depositItemsActions c
      else if cfg.actionType = "gather" then
        mainGatherActions cfg c
      else
        mainFightActions cfg monsterPos c
    else [])

/-! ### Crafting cycle interpreter (src/gameBot.ts `executeCraftingStep`,
`executeCraftingCycle`) -/

/-- Result of one `executeCraftingStep` attempt: whether it returned `true`,
the crafting stats afterwards, the remote calls issued, and the log messages
emitted.  When `apiThrows` is set the failure is modelled at the step's
remote call(s); a sub-call failing earlier differs only in which suffix of
the listed calls was actually issued, which no stats or control flow depends
on. -/
structure StepOut where
  success : Bool
  stats : Option CraftingStats
  actions : List GAction
  logs : List String
deriving DecidableEq, Repr

/-- `updateCraftingStats` acting on the optional stats field, including its
fallback to the empty literal. -/
def applyCraftingStatsO (stats : Option CraftingStats) (u : PartialCraftingStats) :
    Option CraftingStats :=
  some (mergeCraftingStats (stats.getD emptyCraftingStats) u)

/-- `craftingStats?.failedCrafts || 0`. -/
def statsFailed (stats : Option CraftingStats) : Int :=
  match stats with
  | none => 0
  | some s => s.failedCrafts

/-- `craftingStats?.totalCrafts || 0`. -/
def statsTotal (stats : Option CraftingStats) : Int :=
  match stats with
  | none => 0
  | some s => s.totalCrafts

/-- `craftingStats?.materialsUsed.get(item) || 0`. -/
def statsMaterialUsed (stats : Option CraftingStats) (item : String) : Int :=
  match stats with
  | none => 0
  | some s => (jsMapGet s.materialsUsed item).getD 0

/-- `craftingStats?.itemsCrafted.get(item) || 0`. -/
def statsItemCrafted (stats : Option CraftingStats) (item : String) : Int :=
  match stats with
  | none => 0
  | some s => (jsMapGet s.itemsCrafted item).getD 0

/-- The stats after the `catch` branch of `executeCraftingStep`: the
failed-craft counter incremented once. -/
def failStats (stats : Option CraftingStats) : Option CraftingStats :=
  applyCraftingStatsO stats
    { noCraftingUpdates with failedCrafts := some (statsFailed stats + 1) }

/-- `executeCraftingStep` (src/gameBot.ts lines 173-271).  `withdraw`,
`deposit` and `craft` steps first reject a falsy `item` or `quantity`
(returning `false` with no call, no log and no stats change); `move` steps
reject an unknown named location the same way; an unrecognized `type` logs
and returns `false` without touching the stats.  A thrown remote call is
caught: it logs, increments the failed-craft counter once, and returns
`false`. -/
def executeCraftingStep (step : CraftingStep) (character : Character)
    (apiThrows : Bool) (stats : Option CraftingStats) : StepOut :=
  match step.type with
  | "withdraw" =>
      if jsStrFalsy step.item || jsNumFalsy step.quantity then
        ⟨false, stats, [], []⟩
      else
        let item := step.item.getD ""
        let qty := step.quantity.getD 0
        let acts := moveActions character bankPosition ++ [GAction.withdrawA item qty]
        if apiThrows then
          ⟨false, failStats stats, acts, ["Crafting step failed"]⟩
        else
          ⟨true,
            applyCraftingStatsO stats
              { noCraftingUpdates with
                materialsUsed := some [(item, statsMaterialUsed stats item + qty)] },
            acts, ["Withdrawn"]⟩
  | "deposit" =>
      if jsStrFalsy step.item || jsNumFalsy step.quantity then
        ⟨false, stats, [], []⟩
      else
        let item := step.item.getD ""
        let qty := step.quantity.getD 0
        let acts := moveActions character bankPosition ++ [GAction.depositA item qty]
        if apiThrows then
          ⟨false, failStats stats, acts, ["Crafting step failed"]⟩
        else
          ⟨true,
            applyCraftingStatsO stats
              { noCraftingUpdates with
                itemsCrafted := some [(item, statsItemCrafted stats item + qty)] },
            acts, ["Deposited"]⟩
  | "craft" =>
      if jsStrFalsy step.item || jsNumFalsy step.quantity then
        ⟨false, stats, [], []⟩
      else
        let item := step.item.getD ""
        let qty := step.quantity.getD 0
        let acts := [GAction.craftA item qty]
        if apiThrows then
          ⟨false, failStats stats, acts, ["Crafting step failed"]⟩
        else
          ⟨true,
            applyCraftingStatsO stats
              { noCraftingUpdates with totalCrafts := some (statsTotal stats + 1) },
            acts, ["Crafted"]⟩
  | "move" =>
      match step.location with
      | some loc =>
          match CRAFTING_LOCATIONS loc with
          | none => ⟨false, stats, [], []⟩
          | some p =>
              let acts := moveActions character p
              if apiThrows && !acts.isEmpty then
                ⟨false, failStats stats, acts, ["Crafting step failed"]⟩
              else ⟨true, stats, acts, []⟩
      | none =>
          match step.position with
          | some p =>
              let acts := moveActions character p
              if apiThrows && !acts.isEmpty then
                ⟨false, failStats stats, acts, ["Crafting step failed"]⟩
              else ⟨true, stats, acts, []⟩
          | none => ⟨true, stats, [], []⟩
  | _ => ⟨false, stats, [], ["Unknown crafting step type"]⟩

/-- The interpreter's loop position plus the agent's crafting stats. -/
structure CycleState where
  currentStep : Nat
  stats : Option CraftingStats
deriving DecidableEq, Repr

/-- The oracle driving one iteration of `executeCraftingCycle`'s `while`
loop: the character the iteration fetches (`none` models a lookup failure,
which throws) and whether the iteration's remote call throws. -/
structure IterInput where
  character : Option Character
  apiThrows : Bool
deriving DecidableEq, Repr

/-- One iteration's outcome: the new state, whether an uncaught throw
propagated out of the cycle, the calls and logs of the iteration, and the
fixed retry delay awaited after a failed step (5000 ms, otherwise 0).
The calls issued before an uncaught throw are not modelled. -/
structure IterOut where
  state : CycleState
  aborted : Bool
  actions : List GAction
  logs : List String
  retryDelayMs : Int
deriving DecidableEq, Repr

/-- The default used for the guarded `steps[currentStep]` access. -/
def defaultStep : CraftingStep := ⟨"", none, none, none, none⟩

/-! #### IEEE-754 binary64 model of the progress computation

The source publishes `Math.floor((currentStep / totalSteps) * 100)`.
JavaScript numbers are binary64: the division rounds its exact quotient to
53 significand bits (round to nearest, ties to even), the product with the
exactly representable constant 100 rounds once more, and `Math.floor` is
exact.  The model below performs exactly those two roundings in integer
arithmetic; it can differ from the exact `⌊k·100/N⌋` (e.g. 57 instead of 58
at k = 29, N = 50). -/

/-- Fueled binary logarithm; `natLog2 n = ⌊log₂ n⌋` for every `n ≥ 1` (the
fuel `n` always suffices, and the `n < 2` test stops the recursion after
`⌊log₂ n⌋` steps). -/
def log2Fuel : Nat → Nat → Nat
  | 0, _ => 0
  | fuel + 1, n => if n < 2 then 0 else log2Fuel fuel (n / 2) + 1

/-- `⌊log₂ n⌋` (0 at 0). -/
def natLog2 (n : Nat) : Nat := log2Fuel n n

/-- Round the exact quotient `a / b` to the nearest integer, ties to even —
the IEEE-754 default rounding, applied to a quotient scaled so that the
integer part carries the full significand. -/
def rneDiv (a b : Nat) : Nat :=
  if 2 * (a % b) < b then a / b
  else if b < 2 * (a % b) then a / b + 1
  else if (a / b) % 2 = 0 then a / b else a / b + 1

/-- Whether `2 ^ e ≤ a / b`, for positive naturals and an integer exponent. -/
def lePow2 (e : Int) (a b : Nat) : Bool :=
  if 0 ≤ e then decide (b * 2 ^ e.toNat ≤ a) else decide (b ≤ a * 2 ^ (-e).toNat)

/-- `⌊log₂ (a / b)⌋` for positive naturals: `⌊log₂ a⌋ - ⌊log₂ b⌋` is either
the true value or one above it, which the `lePow2` test settles. -/
def floorLog2 (a b : Nat) : Int :=
  if lePow2 ((natLog2 a : Int) - (natLog2 b : Int)) a b then
    (natLog2 a : Int) - (natLog2 b : Int)
  else (natLog2 a : Int) - (natLog2 b : Int) - 1

/-- The 53-bit significand of the binary64 value nearest to `a / b`: with
`E = ⌊log₂ (a/b)⌋`, the nearest-even rounding of `(a/b) · 2^(52-E)`, which
lies in `[2^52, 2^53]` (the value represented is `sigOf · 2^(E-52)`; a carry
to `2^53` leaves the value exact, so no renormalization is needed). -/
def sigOf (a b : Nat) (E : Int) : Nat :=
  if 0 ≤ 52 - E then rneDiv (a * 2 ^ (52 - E).toNat) b
  else rneDiv a (b * 2 ^ (E - 52).toNat)

/-- `Math.floor((k / N) * 100)` as the source's binary64 arithmetic
evaluates it: `k` and `N` convert exactly (they are far below `2^53`), the
division rounds once to a significand `sig` with value `sig·2^(E-52)`, the
exact product `sig·100·2^(E-52)` rounds once more — its significand width is
settled by `2^59 ≤ sig·100`, since `sig·100` lies in `(2^58, 2^60)` — and
the final floor is exact.  `k = 0` gives 0 exactly; `N = 0` (JS `Infinity`)
is unreachable under the loop guard and mapped to 0. -/
def jsProgress (k N : Nat) : Int :=
  if k = 0 then 0
  else if N = 0 then 0
  else
    let E := floorLog2 k N
    let sig := sigOf k N E
    let a2 := sig * 100
    let E2 : Nat := if 2 ^ 59 ≤ a2 then 59 else 58
    let m := rneDiv a2 (2 ^ (E2 - 52))
    let exp3 : Int := (E2 : Int) + E - 104
    if 0 ≤ exp3 then (m : Int) * 2 ^ exp3.toNat
    else ((m / 2 ^ (-exp3).toNat : Nat) : Int)

/-- One iteration of `executeCraftingCycle`'s `while` body (src/gameBot.ts
lines 282-317): fetch the character (a failed lookup throws), preempt with a
bank move plus full deposit when the summed inventory reaches 100 (leaving
`currentStep` untouched), otherwise run the current step; a successful step
advances `currentStep` and publishes
`Math.floor(currentStep / totalSteps * 100)` (binary64 evaluation, see
`jsProgress`), a failed one keeps its position and waits 5000 ms. -/
def cycleIter (steps : List CraftingStep) (s : CycleState) (inp : IterInput) :
    IterOut :=
  match inp.character with
  | none => ⟨s, true, [], [], 0⟩
  | some character =>
      if inventoryTotal character ≥ 100 then
        if inp.apiThrows then ⟨s, true, [], [], 0⟩
        else
          ⟨s, false, moveActions character bankPosition ++ depositItemsActions character,
            [], 0⟩
      else
        let out := executeCraftingStep (steps.getD s.currentStep defaultStep)
          character inp.apiThrows s.stats
        if out.success then
          let prog : Int := jsProgress (s.currentStep + 1) steps.length
          ⟨⟨s.currentStep + 1,
              applyCraftingStatsO out.stats
                { noCraftingUpdates with cycleProgress := some prog }⟩,
            false, out.actions, out.logs, 0⟩
        else
          ⟨⟨s.currentStep, out.stats⟩, false, out.actions, out.logs, 5000⟩

/-- The `while (currentStep < totalSteps && this.isRunning)` loop; the input
list is the fuel: an exhausted list models `stop()` taking effect at the
next loop check.  Returns the final state and whether the cycle ended by an
uncaught throw. -/
def cycleLoop (steps : List CraftingStep) :
    CycleState → List IterInput → CycleState × Bool
  | s, [] => (s, false)
  | s, inp :: rest =>
      if s.currentStep < steps.length then
        if (cycleIter steps s inp).aborted then ((cycleIter steps s inp).state, true)
        else cycleLoop steps (cycleIter steps s inp).state rest
      else (s, false)

/-- The post-loop reset (src/gameBot.ts lines 319-323): once all steps of the
pass completed, the cycle progress is published as 0. -/
def finalizeCycle (steps : List CraftingStep) (s : CycleState) : CycleState :=
  if s.currentStep ≥ steps.length then
    ⟨s.currentStep,
      applyCraftingStatsO s.stats
        { noCraftingUpdates with cycleProgress := some 0 }⟩
  else s

/-- One full invocation of `executeCraftingCycle`: the loop always enters at
step 0, and the post-loop reset runs only when the loop was not exited by a
throw. -/
def runCycle (steps : List CraftingStep) (stats : Option CraftingStats)
    (inputs : List IterInput) : CycleState × Bool :=
  if (cycleLoop steps ⟨0, stats⟩ inputs).2 then cycleLoop steps ⟨0, stats⟩ inputs
  else (finalizeCycle steps (cycleLoop steps ⟨0, stats⟩ inputs).1, false)

/-- The `craft` branch of `GameBot.start`'s loop: `executeCraftingCycle` is
re-invoked for as long as the agent runs, each pass starting again at step 0
while the stats persist on the status. -/
def craftRun (steps : List CraftingStep) :
    Option CraftingStats → List (List IterInput) → Option CraftingStats
  | stats, [] => stats
  | stats, pass :: more => craftRun steps (runCycle steps stats pass).1.stats more

/-! ### Agent manager (src/botManager.ts `GameBotManager`) -/

/-- A `Partial<BotConfig>` as merged by `updateBotConfig`: a `none` field is
absent from the partial object and keeps the existing value.  (Spreading a
field explicitly set to `undefined` is not representable; no caller in the
repository does that.) -/
structure PartialBotConfig where
  apiToken : Option String
  characterName : Option String
  actionType : Option String
  resource : Option String
  craftingCycle : Option CraftingCycleV
  fightLocation : Option Position
  selectedMonster : Option String
  monsterSkin : Option String
deriving DecidableEq, Repr

/-- The all-absent partial config. -/
def noConfigUpdates : PartialBotConfig :=
  ⟨none, none, none, none, none, none, none, none⟩

/-- `{ ...currentConfig, ...newConfig, apiToken: this.apiToken }`
(src/botManager.ts lines 86-90): present fields of the partial override, and
the API token is always forced back to the manager's own token. -/
def mergeConfig (cur : BotConfigV) (p : PartialBotConfig)
    (managerToken : String) : BotConfigV where
  apiToken := managerToken
  characterName := p.characterName.getD cur.characterName
  actionType := p.actionType.getD cur.actionType
  resource := match p.resource with
    | none => cur.resource
    | some r => some r
  craftingCycle := match p.craftingCycle with
    | none => cur.craftingCycle
    | some cc => some cc
  fightLocation := match p.fightLocation with
    | none => cur.fightLocation
    | some fl => some fl
  selectedMonster := match p.selectedMonster with
    | none => cur.selectedMonster
    | some sm => some sm
  monsterSkin := match p.monsterSkin with
    | none => cur.monsterSkin
    | some ms => some ms

/-- A `GameBot` instance as the manager sees it: its config (immutable for
the instance's lifetime) and its current status. -/
structure BotV where
  config : BotConfigV
  status : BotStatusV
deriving DecidableEq, Repr

/-- The manager's owned state: the three name-keyed maps, the bounded log,
and the manager's own API token. -/
structure ManagerState where
  bots : List (String × BotV)
  botsConfig : List (String × BotConfigV)
  botsStatus : List (String × BotStatusV)
  logs : List LogEntry
  apiToken : String

/-- `createBot` (src/botManager.ts lines 40-65): construct the bot (initial
status literal), wire its events, and register it in all three maps under
`config.characterName`. -/
def createBot (m : ManagerState) (config : BotConfigV) : ManagerState :=
  let bot : BotV := ⟨config, initialStatus⟩
  { m with
    bots := jsMapSet m.bots config.characterName bot
    botsConfig := jsMapSet m.botsConfig config.characterName config
    botsStatus := jsMapSet m.botsStatus config.characterName bot.status }

/-- `startBot` (src/botManager.ts lines 134-144).  A found bot's `start()`
is idempotent: when the bot is already running nothing changes on the bot
side; otherwise the running flag is published (the manager's status handler
stores it) and the bot's "Bot started" log reaches the manager's handler.
`startBot` then appends its own "Bot started" entry either way. -/
def startBot (m : ManagerState) (characterName : String) : ManagerState :=
  match jsMapGet m.bots characterName with
  | none => m
  | some bot =>
      if bot.status.isRunning then
        { m with logs := addLog m.logs ⟨characterName, "Bot started"⟩ }
      else
        let bot2 : BotV := { bot with status := { bot.status with isRunning := true } }
        { m with
          bots := jsMapSet m.bots characterName bot2
          botsStatus := jsMapSet m.botsStatus characterName bot2.status
          logs := addLog (addLog m.logs ⟨characterName, "Bot started"⟩)
            ⟨characterName, "Bot started"⟩ }

/-- `stopBot` (src/botManager.ts lines 146-156): a found bot's `stop()`
unconditionally publishes `isRunning: false` and logs "Bot stopped";
`stopBot` then appends its own "Bot stopped" entry. -/
def stopBot (m : ManagerState) (characterName : String) : ManagerState :=
  match jsMapGet m.bots characterName with
  | none => m
  | some bot =>
      let bot2 : BotV := { bot with status := { bot.status with isRunning := false } }
      { m with
        bots := jsMapSet m.bots characterName bot2
        botsStatus := jsMapSet m.botsStatus characterName bot2.status
        logs := addLog (addLog m.logs ⟨characterName, "Bot stopped"⟩)
          ⟨characterName, "Bot stopped"⟩ }

/-- `bot?.getStatus().isRunning` with JS falsiness for a missing bot
(src/botManager.ts line 80). -/
def wasRunningOf (m : ManagerState) (characterName : String) : Bool :=
  match jsMapGet m.bots characterName with
  | some bot => bot.status.isRunning
  | none => false

/-- `updateBotConfig` (src/botManager.ts lines 74-108): no-op for an unknown
name; otherwise stop the bot if running, merge the partial over the current
config (API token forced back), delete the old bot entry, recreate from the
merged config (which registers under the merged `characterName`), re-store
the merged config under the given name, and restart if it was running. -/
def updateBotConfig (m : ManagerState) (characterName : String)
    (newConfig : PartialBotConfig) : ManagerState :=
  match jsMapGet m.botsConfig characterName with
  | none => m
  | some currentConfig =>
      let wasRunning := wasRunningOf m characterName
      let m1 := if wasRunning then stopBot m characterName else m
      let updatedConfig := mergeConfig currentConfig newConfig m.apiToken
      let m2 := { m1 with bots := jsMapDelete m1.bots characterName }
      let m3 := createBot m2 updatedConfig
      let m4 := { m3 with botsConfig := jsMapSet m3.botsConfig characterName updatedConfig }
      if wasRunning then startBot m4 characterName else m4

/-! ### Published-snapshot heap model (src/gameBot.ts `updateStatus`,
`updateCraftingStats`, `getStatus`) -/

/-- Object-identity model of the agent's status publication: a heap of
status objects addressed by reference, the reference currently held in
`this.status`, and the next fresh address.  Every reference handed to a
consumer (through a `statusUpdate` emission or `getStatus`) is an address
that was `cur` at some point, hence is below `next`. -/
structure AgentHeap where
  heap : Nat → BotStatusV
  cur : Nat
  next : Nat

/-- `updateStatus` (src/gameBot.ts lines 74-77): `{ ...this.status,
...updates }` allocates a fresh object, which becomes the new `this.status`
and is published. -/
def updateStatusH (a : AgentHeap) (updates : PartialStatus) : AgentHeap where
  heap := fun r => if r = a.next then mergeStatus (a.heap a.cur) updates else a.heap r
  cur := a.next
  next := a.next + 1

/-- `updateCraftingStats` (src/gameBot.ts lines 79-103):
`this.status.craftingStats = { ... }` writes the merged stats into the
object `this.status` already references, then re-emits that same object. -/
def updateCraftingStatsH (a : AgentHeap) (updates : PartialCraftingStats) :
    AgentHeap where
  heap := fun r => if r = a.cur then applyCraftingStats (a.heap a.cur) updates else a.heap r
  cur := a.cur
  next := a.next

/-! ### Derived predicates used by the statements -/

/-- Whether a call is one of the three main game actions (fight, gather,
craft). -/
def isMainGameAction : GAction → Bool
  | GAction.fightA => true
  | GAction.gatherA => true
  | GAction.craftA _ _ => true
  | _ => false

/-- A crafting step on which `executeCraftingStep` returns `true` whenever
its remote calls do not throw: a recognized type whose validation checks
pass. -/
def stepValid (step : CraftingStep) : Bool :=
  match step.type with
  | "withdraw" => !(jsStrFalsy step.item || jsNumFalsy step.quantity)
  | "deposit" => !(jsStrFalsy step.item || jsNumFalsy step.quantity)
  | "craft" => !(jsStrFalsy step.item || jsNumFalsy step.quantity)
  | "move" =>
      match step.location with
      | some loc => (CRAFTING_LOCATIONS loc).isSome
      | none => true
  | _ => false

/-- The `cycleProgress` field carried by an optional stats value. -/
def statsProgress (stats : Option CraftingStats) : Int :=
  (stats.getD emptyCraftingStats).cycleProgress

/-! ### Concrete instances used by counterexamples and witnesses -/

/-- A batch whose every deposit response carries the expiration 5000 ms. -/
def cexResp : Nat → Option Int := fun _ => some 5000

/-- A batch whose responses carry no cooldown. -/
def noCooldowns : Nat → Option Int := fun _ => none

/-- A sample character at 40/100 HP with an empty inventory. -/
def sampleCharacter : Character := ⟨"Psy", 40, 100, 0, 0, []⟩

/-- A full-HP character standing on the bank with a full inventory. -/
def bankedCharacter : Character := ⟨"Atlas", 100, 100, 4, 1, [⟨some "iron", 95⟩, ⟨some "copper", 5⟩]⟩

/-- A fight-configured agent with no monster target. -/
def cexFightConfig : BotConfigV := ⟨"tok", "Psy", "fight", none, none, none, none, none⟩

/-- A gather-configured agent with no resource. -/
def demoGatherConfig : BotConfigV := ⟨"tok", "Atlas", "gather", none, none, none, none, none⟩

/-- A low-HP character whose single slot holds 100 copper. -/
def cexFullLowHpChar : Character := ⟨"Psy", 40, 100, 0, 0, [⟨some "copper", 100⟩]⟩

/-- A step with an unrecognized type. -/
def cexUnknownStep : CraftingStep := ⟨"transmute", some "iron", some 1, none, none⟩

/-- A well-formed withdraw step. -/
def demoWithdrawStep : CraftingStep := ⟨"withdraw", some "copper", some 3, none, none⟩

/-- A craft step missing its quantity. -/
def cexInvalidStep : CraftingStep := ⟨"craft", some "ring", none, none, none⟩

/-- A well-formed move-to-bank step. -/
def demoMoveStep : CraftingStep := ⟨"move", none, none, some "bank", none⟩

/-- A two-step demonstration cycle. -/
def demoSteps : List CraftingStep := [demoMoveStep, demoWithdrawStep]

/-- Two stalled-cycle iteration inputs: a below-threshold character, then a
full-inventory one (exercising the bank preemption). -/
def demoStallInputs : List IterInput :=
  [⟨some sampleCharacter, false⟩, ⟨some bankedCharacter, false⟩]

/-- A fight result dropping two iron ore. -/
def cexFight : FightInfo := ⟨10, 5, some [⟨"iron_ore", 2⟩]⟩

/-- A gather result yielding four copper. -/
def cexGather : GatherInfo := ⟨3, some [⟨"copper", 4⟩]⟩

/-- A fresh manager with no registered agents and token "mgrtok". -/
def emptyManager : ManagerState := ⟨[], [], [], [], "mgrtok"⟩

/-- A fight config for "Psy" under the manager's token. -/
def demoConfig : BotConfigV := ⟨"mgrtok", "Psy", "fight", none, none, none, none, none⟩

/-- A manager with the one agent "Psy" registered. -/
def demoManager : ManagerState := createBot emptyManager demoConfig

/-- The same manager after starting "Psy". -/
def demoRunning : ManagerState := startBot demoManager "Psy"

/-- A partial config that renames the character. -/
def renamePc : PartialBotConfig := ⟨none, some "Other", none, none, none, none, none, none⟩

/-- A partial config switching the action kind to gather. -/
def demoPc : PartialBotConfig := ⟨none, none, some "gather", none, none, none, none, none⟩

/-- A one-object heap whose only status is published. -/
def cexAgent : AgentHeap := ⟨fun _ => initialStatus, 0, 1⟩

/-- A two-object heap: object 0 was published, then an `updateStatus`
allocated object 1, the current one. -/
def demoAgent : AgentHeap := ⟨fun _ => initialStatus, 1, 2⟩

/-- The crafting-stats update used against the snapshot guarantee. -/
def cexStatsUpdate : PartialCraftingStats :=
  { noCraftingUpdates with failedCrafts := some 1 }

/-! ## Theorems -/

/-! ### C1 — cooldown discipline -/

/-- C1 counterexample: inside `depositAll` the response cooldowns are never
read; with the first deposit issued at 0 and its response carrying the
expiration 5000, the second deposit is issued at the fixed spacing 3500,
before the expiration plus the 500 ms margin (5500) has elapsed. -/
theorem c1_batch_before_expiration :
    cexResp 0 = some 5000 ∧
    depositAllIssueTime 0 cexResp 1 = 3500 ∧
    ¬ ((5000 : Int) + 500 ≤ 3500) := by
  refine ⟨rfl, ?_, by decide⟩
  simp [depositAllIssueTime]

/-- C1 (amended): an action whose stored cooldown expiration is still in the
future when `handleCooldown` runs resumes exactly at the expiration plus the
500 ms margin; successive calls inside a `depositAll`/`withdrawAll` batch are
spaced by a fixed 3500 ms regardless of the cooldowns their responses carry. -/
theorem c1_cooldown_margin (now expiration start : Int)
    (resp : Nat → Option Int) (i : Nat) (h : now < expiration) :
    handleCooldown now (some expiration) = expiration + 500 ∧
    depositAllIssueTime start resp (i + 1) = depositAllIssueTime start resp i + 3500 := by
  constructor
  · simp only [handleCooldown]
    rw [if_pos (by omega)]
    ring
  · rfl

/-- C1 witness at `now = 0`, `expiration = 10000`. -/
theorem c1_cooldown_margin_witness :
    (0 : Int) < 10000 ∧
    (handleCooldown 0 (some 10000) = 10000 + 500 ∧
      depositAllIssueTime 0 noCooldowns 1 = depositAllIssueTime 0 noCooldowns 0 + 3500) :=
  ⟨by decide, c1_cooldown_margin 0 10000 0 noCooldowns 0 (by decide)⟩

/-! ### C2 — item accounting on fight/gather results -/

/-- C2: the fold over the drops is applied only to the local map used for the
log summary; the published status re-receives a copy of the old map, so the
listed pairs are lost.  Evaluated at the failing input: from the fresh
initial status, a fight dropping 2 iron ore (and a gather yielding 4 copper)
publishes an unchanged empty `itemsCollected`, while the log-summary map
shows what should have been recorded. -/
theorem c2_drops_lost :
    (processFightResults initialStatus (some cexFight)).itemsCollected = [] ∧
    fightSummaryItems initialStatus cexFight = [("iron_ore", 2)] ∧
    (processGatherResults initialStatus (some cexGather)).itemsCollected = [] ∧
    gatherSummaryItems initialStatus cexGather = [("copper", 4)] := by
  decide

/-! ### C8 — bounded most-recent-first log -/

theorem addLog_eq_take (logs : List LogEntry) (l : LogEntry) :
    addLog logs l = (l :: logs).take MAX_LOGS := by
  simp only [addLog]
  split
  · rfl
  · next h => exact (List.take_of_length_le (by omega)).symm

theorem take_append_take (A B : List LogEntry) :
    (A ++ B.take MAX_LOGS).take MAX_LOGS = (A ++ B).take MAX_LOGS := by
  rw [List.take_append_eq_append_take, List.take_append_eq_append_take,
    List.take_take, Nat.min_eq_left (Nat.sub_le _ _)]

theorem foldl_addLog_eq (es : List LogEntry) (logs : List LogEntry)
    (h : logs.length ≤ MAX_LOGS) :
    es.foldl addLog logs = (es.reverse ++ logs).take MAX_LOGS := by
  induction es generalizing logs with
  | nil =>
      simp only [List.foldl_nil, List.reverse_nil, List.nil_append]
      exact (List.take_of_length_le h).symm
  | cons e es ih =>
      simp only [List.foldl_cons, List.reverse_cons]
      rw [ih (addLog logs e) (by rw [addLog_eq_take]; simp [List.length_take_le]),
        addLog_eq_take, take_append_take]
      simp

/-- C8: after inserting any sequence of at least `MAX_LOGS` (1000) entries
into an empty log via `addLog`, exactly the 1000 most recently inserted
entries remain, most-recent-first. -/
theorem c8_log_bound (es : List LogEntry) (h : MAX_LOGS ≤ es.length) :
    es.foldl addLog [] = es.reverse.take MAX_LOGS ∧
    (es.foldl addLog []).length = MAX_LOGS := by
  have e1 : es.foldl addLog [] = es.reverse.take MAX_LOGS := by
    rw [foldl_addLog_eq es [] (by simp)]
    simp
  refine ⟨e1, ?_⟩
  rw [e1, List.length_take, List.length_reverse]
  omega

/-- C8 witness: 1000 identical entries. -/
theorem c8_log_bound_witness :
    MAX_LOGS ≤ (List.replicate 1000 (LogEntry.mk "c" "m")).length ∧
    ((List.replicate 1000 (LogEntry.mk "c" "m")).foldl addLog [] =
        (List.replicate 1000 (LogEntry.mk "c" "m")).reverse.take MAX_LOGS ∧
      ((List.replicate 1000 (LogEntry.mk "c" "m")).foldl addLog []).length = MAX_LOGS) :=
  ⟨by rw [List.length_replicate]; exact Nat.le_refl _, c8_log_bound _ (by rw [List.length_replicate]; exact Nat.le_refl _)⟩

/-! ### C9 — rest thresholds -/

/-- C9: for a character with positive maximum HP, a rest call is issued iff
the HP percentage is below 50 for the `fight` kind, below 30 for `gather`,
and never for `craft`.  (The positivity hypothesis keeps the rational model
of the percentage on the domain where it agrees with the source's floating
division.) -/
theorem c9_rest_threshold (c : Character) (h : 0 < c.max_hp) :
    (restActions "fight" c = [GAction.restA] ↔ hpPercent c < 50) ∧
    (restActions "gather" c = [GAction.restA] ↔ hpPercent c < 30) ∧
    restActions "craft" c = [] := by
  refine ⟨?_, ?_, ?_⟩ <;> simp [restActions, needsRest]

/-- C9 witness at 40/100 HP. -/
theorem c9_rest_threshold_witness :
    (0 : Int) < sampleCharacter.max_hp ∧
    ((restActions "fight" sampleCharacter = [GAction.restA] ↔ hpPercent sampleCharacter < 50) ∧
      (restActions "gather" sampleCharacter = [GAction.restA] ↔ hpPercent sampleCharacter < 30) ∧
      restActions "craft" sampleCharacter = []) :=
  ⟨by decide, c9_rest_threshold sampleCharacter (by decide)⟩

/-! ### C7 — snapshot immutability -/

/-- C7 counterexample: from a one-object heap whose only status (reference 0)
has been published, a crafting-stats update (here `failedCrafts := 1`)
rewrites that very object: the snapshot a consumer already holds changes. -/
theorem c7_snapshot_mutated :
    (updateCraftingStatsH cexAgent cexStatsUpdate).heap 0 ≠ cexAgent.heap 0 := by
  decide

/-- C7 (amended): `updateStatus` constructs a fresh object and leaves every
previously allocated object unchanged, while `updateCraftingStats` writes in
place through the currently published reference: it leaves every *other*
object unchanged, but the most recently published snapshot itself is mutated
(see the counterexample). -/
theorem c7_snapshot_isolation (a : AgentHeap) (u : PartialStatus)
    (v : PartialCraftingStats) (r : Nat) (hr : r < a.next) (hc : r ≠ a.cur) :
    (updateStatusH a u).heap r = a.heap r ∧
    (updateCraftingStatsH a v).heap r = a.heap r := by
  constructor
  · simp only [updateStatusH]
    rw [if_neg (by omega)]
  · simp only [updateCraftingStatsH]
    rw [if_neg hc]

/-- C7 witness: on the two-object heap, the older published object 0 is
untouched by both update kinds. -/
theorem c7_snapshot_isolation_witness :
    0 < demoAgent.next ∧ 0 ≠ demoAgent.cur ∧
    ((updateStatusH demoAgent noStatusUpdates).heap 0 = demoAgent.heap 0 ∧
      (updateCraftingStatsH demoAgent cexStatsUpdate).heap 0 = demoAgent.heap 0) :=
  ⟨by decide, by decide,
    c7_snapshot_isolation demoAgent noStatusUpdates cexStatsUpdate 0 (by decide) (by decide)⟩

/-! ### C3 — inventory threshold preemption -/

/-- C3 counterexample: a fight-kind iteration for a character at 40% HP with
100 items first issues a rest call; the very next action is not the
move-to-bank the claim requires. -/
theorem c3_rest_precedes_bank :
    inventoryTotal cexFullLowHpChar ≥ 100 ∧
    loopIterActions cexFightConfig none cexFullLowHpChar =
      [GAction.restA, GAction.moveA bankPosition, GAction.depositA "copper" 100] ∧
    (loopIterActions cexFightConfig none cexFullLowHpChar).head? ≠
      some (GAction.moveA bankPosition) := by
  have hrest : needsRest "fight"
      (⟨"Psy", 40, 100, 0, 0, [⟨some "copper", 100⟩]⟩ : Character) = true := by
    simp only [needsRest]
    norm_num [hpPercent]
  have hlist : loopIterActions cexFightConfig none cexFullLowHpChar =
      [GAction.restA, GAction.moveA bankPosition, GAction.depositA "copper" 100] := by
    simp [loopIterActions, cexFightConfig, restActions, hrest, moveActions,
      bankPosition, cexFullLowHpChar, depositItemsActions, inventoryTotal,
      jsStrFalsy]
  exact ⟨by decide, hlist, by rw [hlist]; decide⟩

/-- C3 (amended): when the freshly fetched character's summed inventory is at
least 100, a `fight`/`gather` iteration issues, after the rest policy (which
may issue a rest first), exactly a move to the bank (omitted when already
there) followed by the deposits of every slot with a truthy code and positive
quantity, and no fight, gather or craft call; in the crafting interpreter the
same preemption issues the same bank actions and leaves `currentStep` and the
stats unchanged. -/
theorem c3_inventory_threshold (cfg : BotConfigV) (mp : Option Position)
    (c : Character) (steps : List CraftingStep) (i : Nat)
    (st : Option CraftingStats)
    (hkind : cfg.actionType = "fight" ∨ cfg.actionType = "gather")
    (hinv : inventoryTotal c ≥ 100) :
    loopIterActions cfg mp c =
      restActions cfg.actionType c ++
        (moveActions c bankPosition ++ depositItemsActions c) ∧
    (loopIterActions cfg mp c).all (fun a => !isMainGameAction a) = true ∧
    (cycleIter steps ⟨i, st⟩ ⟨some c, false⟩).state = ⟨i, st⟩ ∧
    (cycleIter steps ⟨i, st⟩ ⟨some c, false⟩).actions =
      moveActions c bankPosition ++ depositItemsActions c ∧
    (cycleIter steps ⟨i, st⟩ ⟨some c, false⟩).aborted = false := by
  have hne : ¬ cfg.actionType = "craft" := by
    rcases hkind with h | h <;> simp [h]
  have hmain : loopIterActions cfg mp c =
      restActions cfg.actionType c ++
        (moveActions c bankPosition ++ depositItemsActions c) := by
    unfold loopIterActions
    rw [if_neg hne, if_pos hkind, if_pos hinv]
  refine ⟨hmain, ?_, ?_, ?_, ?_⟩
  · rw [hmain]
    simp only [List.all_append, Bool.and_eq_true]
    refine ⟨?_, ?_, ?_⟩
    · unfold restActions
      split <;> simp [isMainGameAction]
    · unfold moveActions
      split <;> simp [isMainGameAction]
    · unfold depositItemsActions
      rw [List.all_eq_true]
      intro a ha
      rw [List.mem_map] at ha
      obtain ⟨slot, hslot, rfl⟩ := ha
      rfl
  · simp [cycleIter, if_pos hinv]
  · simp [cycleIter, if_pos hinv]
  · simp [cycleIter, if_pos hinv]

/-- C3 witness: a gather-kind character standing on the bank with a full
inventory and full HP. -/
theorem c3_inventory_threshold_witness :
    (demoGatherConfig.actionType = "fight" ∨ demoGatherConfig.actionType = "gather") ∧
    inventoryTotal bankedCharacter ≥ 100 ∧
    (loopIterActions demoGatherConfig none bankedCharacter =
        restActions demoGatherConfig.actionType bankedCharacter ++
          (moveActions bankedCharacter bankPosition ++ depositItemsActions bankedCharacter) ∧
      (loopIterActions demoGatherConfig none bankedCharacter).all
          (fun a => !isMainGameAction a) = true ∧
      (cycleIter demoSteps ⟨0, none⟩ ⟨some bankedCharacter, false⟩).state = ⟨0, none⟩ ∧
      (cycleIter demoSteps ⟨0, none⟩ ⟨some bankedCharacter, false⟩).actions =
        moveActions bankedCharacter bankPosition ++ depositItemsActions bankedCharacter ∧
      (cycleIter demoSteps ⟨0, none⟩ ⟨some bankedCharacter, false⟩).aborted = false) :=
  ⟨Or.inr rfl, by decide,
    c3_inventory_threshold demoGatherConfig none bankedCharacter demoSteps 0 none
      (Or.inr rfl) (by decide)⟩

/-! ### C4 — crafting failure accounting -/

/-- C4 counterexample: a step with the unrecognized type "transmute" fails
(`executeCraftingStep` returns `false`) without incrementing the failed-craft
counter, which stays at 0 instead of becoming 1. -/
theorem c4_unknown_step_not_counted :
    (executeCraftingStep cexUnknownStep sampleCharacter false
        (some emptyCraftingStats)).success = false ∧
    (executeCraftingStep cexUnknownStep sampleCharacter false
        (some emptyCraftingStats)).stats = some emptyCraftingStats ∧
    emptyCraftingStats.failedCrafts = 0 := by
  refine ⟨rfl, rfl, rfl⟩

/-- C4 (amended): a failed step attempt never advances `currentStep`, never
aborts the cycle, and is followed by the fixed 5000 ms retry delay after
which the same step (still at `currentStep`) is attempted again; the
failed-craft counter is incremented exactly once per attempt that fails with
a thrown remote call on a validated withdraw/deposit/craft step, while an
attempt rejected before any call — in particular one whose type is
unrecognized — returns failure with the counter untouched. -/
theorem c4_failure_semantics (steps : List CraftingStep) (i : Nat)
    (st : Option CraftingStats) (inp : IterInput) (c : Character)
    (stepB stepC : CraftingStep)
    (hc : inp.character = some c) (hinv : inventoryTotal c < 100) :
    ((executeCraftingStep (steps.getD i defaultStep) c inp.apiThrows st).success = false →
      (cycleIter steps ⟨i, st⟩ inp).state.currentStep = i ∧
      (cycleIter steps ⟨i, st⟩ inp).aborted = false ∧
      (cycleIter steps ⟨i, st⟩ inp).retryDelayMs = 5000) ∧
    ((stepB.type = "withdraw" ∨ stepB.type = "deposit" ∨ stepB.type = "craft") →
      jsStrFalsy stepB.item = false → jsNumFalsy stepB.quantity = false →
      (executeCraftingStep stepB c true st).success = false ∧
      (executeCraftingStep stepB c true st).stats = failStats st ∧
      statsFailed (failStats st) = statsFailed st + 1) ∧
    (stepC.type ≠ "withdraw" → stepC.type ≠ "deposit" → stepC.type ≠ "craft" →
      stepC.type ≠ "move" →
      executeCraftingStep stepC c inp.apiThrows st =
        ⟨false, st, [], ["Unknown crafting step type"]⟩) := by
  refine ⟨?_, ?_, ?_⟩
  · intro h
    simp only [cycleIter, hc]
    rw [if_neg (by omega), h]
    exact ⟨rfl, rfl, rfl⟩
  · intro htype hitem hqty
    have hval : (jsStrFalsy stepB.item || jsNumFalsy stepB.quantity) = false := by
      rw [hitem, hqty]
      rfl
    rcases htype with h | h | h <;>
      · simp only [executeCraftingStep, h, hval, Bool.false_eq_true, if_false, if_true]
        refine ⟨?_, ?_, ?_⟩ <;> trivial
  · intro h1 h2 h3 h4
    unfold executeCraftingStep
    split
    · next heq => exact absurd heq h1
    · next heq => exact absurd heq h2
    · next heq => exact absurd heq h3
    · next heq => exact absurd heq h4
    · rfl

/-- C4 witness: a withdraw step whose remote call throws, inside a one-step
cycle, at a character below the inventory threshold. -/
theorem c4_failure_semantics_witness :
    (IterInput.mk (some sampleCharacter) true).character = some sampleCharacter ∧
    inventoryTotal sampleCharacter < 100 ∧
    (cycleIter [demoWithdrawStep] ⟨0, none⟩ ⟨some sampleCharacter, true⟩).state.currentStep = 0 ∧
    (cycleIter [demoWithdrawStep] ⟨0, none⟩ ⟨some sampleCharacter, true⟩).retryDelayMs = 5000 ∧
    (executeCraftingStep demoWithdrawStep sampleCharacter true none).stats = failStats none ∧
    executeCraftingStep cexUnknownStep sampleCharacter true none =
      ⟨false, none, [], ["Unknown crafting step type"]⟩ := by
  have T := c4_failure_semantics [demoWithdrawStep] 0 none
    ⟨some sampleCharacter, true⟩ sampleCharacter demoWithdrawStep cexUnknownStep
    rfl (by decide)
  have hfail : (executeCraftingStep ([demoWithdrawStep].getD 0 defaultStep)
      sampleCharacter (IterInput.mk (some sampleCharacter) true).apiThrows none).success = false := rfl
  refine ⟨rfl, by decide, (T.1 hfail).1, (T.1 hfail).2.2, ?_, ?_⟩
  · exact (T.2.1 (Or.inl rfl) rfl rfl).2.1
  · exact T.2.2 (by decide) (by decide) (by decide) (by decide)

/-! ### C10 — invalid withdraw/deposit/craft steps stall silently -/

/-- A withdraw/deposit/craft step missing its item or quantity (or with
quantity 0) is rejected by the validation check before any remote call: no
call, no log, no stats change. -/
theorem exec_invalid_step (step : CraftingStep) (c2 : Character) (throws : Bool)
    (st2 : Option CraftingStats)
    (htype : step.type = "withdraw" ∨ step.type = "deposit" ∨ step.type = "craft")
    (hbad : step.item = none ∨ step.quantity = none ∨ step.quantity = some 0) :
    executeCraftingStep step c2 throws st2 = ⟨false, st2, [], []⟩ := by
  have hval : (jsStrFalsy step.item || jsNumFalsy step.quantity) = true := by
    rcases hbad with h | h | h <;> simp [jsStrFalsy, jsNumFalsy, h]
  rcases htype with h | h | h <;>
    simp only [executeCraftingStep, h, hval, if_true]

/-- The cycle stalls at an invalid step: with found characters (and no throw
whenever the inventory preemption triggers), any number of iterations leaves
the cycle state exactly where it started, without aborting. -/
theorem cycleLoop_stall (steps : List CraftingStep) (i : Nat)
    (st : Option CraftingStats)
    (htype : (steps.getD i defaultStep).type = "withdraw" ∨
      (steps.getD i defaultStep).type = "deposit" ∨
      (steps.getD i defaultStep).type = "craft")
    (hbad : (steps.getD i defaultStep).item = none ∨
      (steps.getD i defaultStep).quantity = none ∨
      (steps.getD i defaultStep).quantity = some 0) :
    ∀ inputs : List IterInput,
      (∀ inp ∈ inputs, ∃ c2, inp.character = some c2 ∧
        (inp.apiThrows = false ∨ inventoryTotal c2 < 100)) →
      cycleLoop steps ⟨i, st⟩ inputs = (⟨i, st⟩, false) := by
  intro inputs
  induction inputs with
  | nil => intro _; rfl
  | cons inp rest ih =>
      intro hinputs
      obtain ⟨c2, hcc, hdisj⟩ := hinputs inp (List.mem_cons_self _ _)
      have hrest := ih (fun x hx => hinputs x (List.mem_cons_of_mem _ hx))
      by_cases hi : i < steps.length
      · have hiter : cycleIter steps ⟨i, st⟩ inp =
              ⟨⟨i, st⟩, false,
                moveActions c2 bankPosition ++ depositItemsActions c2, [], 0⟩ ∨
            cycleIter steps ⟨i, st⟩ inp = ⟨⟨i, st⟩, false, [], [], 5000⟩ := by
          by_cases hinv : inventoryTotal c2 ≥ 100
          · rcases hdisj with hthrow | hlt
            · left
              simp only [cycleIter, hcc]
              rw [if_pos hinv, hthrow]
              rfl
            · omega
          · right
            simp only [cycleIter, hcc]
            rw [if_neg hinv, exec_invalid_step _ _ _ _ htype hbad]
            rfl
        rcases hiter with h | h <;>
          · simp only [cycleLoop]
            rw [if_pos hi, h]
            simpa using hrest
      · simp only [cycleLoop]
        rw [if_neg hi]

/-- C10: a withdraw/deposit/craft step whose item or quantity is absent (or
whose quantity is 0) fails without issuing any call, emitting any log, or
touching the stats (in particular the failed-craft counter); every retry of
it waits the fixed 5000 ms and leaves `currentStep` where it was, so the
cycle never advances past it. -/
theorem c10_invalid_step_stalls (steps : List CraftingStep) (i : Nat)
    (st : Option CraftingStats) (inputs : List IterInput)
    (htype : (steps.getD i defaultStep).type = "withdraw" ∨
      (steps.getD i defaultStep).type = "deposit" ∨
      (steps.getD i defaultStep).type = "craft")
    (hbad : (steps.getD i defaultStep).item = none ∨
      (steps.getD i defaultStep).quantity = none ∨
      (steps.getD i defaultStep).quantity = some 0)
    (hinputs : ∀ inp ∈ inputs, ∃ c2, inp.character = some c2 ∧
      (inp.apiThrows = false ∨ inventoryTotal c2 < 100)) :
    (∀ c2 throws st2, executeCraftingStep (steps.getD i defaultStep) c2 throws st2 =
      ⟨false, st2, [], []⟩) ∧
    cycleLoop steps ⟨i, st⟩ inputs = (⟨i, st⟩, false) ∧
    (∀ c2 throws, inventoryTotal c2 < 100 →
      cycleIter steps ⟨i, st⟩ ⟨some c2, throws⟩ = ⟨⟨i, st⟩, false, [], [], 5000⟩) := by
  refine ⟨fun c2 throws st2 => exec_invalid_step _ c2 throws st2 htype hbad,
    cycleLoop_stall steps i st htype hbad inputs hinputs, ?_⟩
  intro c2 throws hlt
  simp only [cycleIter]
  rw [if_neg (by omega), exec_invalid_step _ _ _ _ htype hbad]
  rfl

/-- C10 witness: a craft step with no quantity, retried across two
iterations (one of which triggers the bank preemption). -/
theorem c10_invalid_step_stalls_witness :
    (([cexInvalidStep].getD 0 defaultStep).type = "withdraw" ∨
      ([cexInvalidStep].getD 0 defaultStep).type = "deposit" ∨
      ([cexInvalidStep].getD 0 defaultStep).type = "craft") ∧
    (([cexInvalidStep].getD 0 defaultStep).item = none ∨
      ([cexInvalidStep].getD 0 defaultStep).quantity = none ∨
      ([cexInvalidStep].getD 0 defaultStep).quantity = some 0) ∧
    executeCraftingStep cexInvalidStep sampleCharacter true none =
      ⟨false, none, [], []⟩ ∧
    cycleLoop [cexInvalidStep] ⟨0, some emptyCraftingStats⟩ demoStallInputs =
      (⟨0, some emptyCraftingStats⟩, false) ∧
    cycleIter [cexInvalidStep] ⟨0, some emptyCraftingStats⟩ ⟨some sampleCharacter, false⟩ =
      ⟨⟨0, some emptyCraftingStats⟩, false, [], [], 5000⟩ := by
  have T := c10_invalid_step_stalls [cexInvalidStep] 0 (some emptyCraftingStats)
    demoStallInputs (Or.inr (Or.inr rfl)) (Or.inr (Or.inl rfl))
    (by
      intro inp hinp
      simp only [demoStallInputs, List.mem_cons, List.not_mem_nil, or_false] at hinp
      rcases hinp with rfl | rfl
      · exact ⟨sampleCharacter, rfl, Or.inl rfl⟩
      · exact ⟨bankedCharacter, rfl, Or.inl rfl⟩)
  exact ⟨Or.inr (Or.inr rfl), Or.inr (Or.inl rfl),
    T.1 sampleCharacter true none, T.2.1,
    T.2.2 sampleCharacter false (by decide)⟩


/-! ### C5 — cycle progression -/

/-- A valid step (recognized type, passing validation) succeeds whenever its
remote calls do not throw. -/
theorem exec_valid_success (step : CraftingStep) (c2 : Character)
    (st2 : Option CraftingStats) (h : stepValid step = true) :
    (executeCraftingStep step c2 false st2).success = true := by
  obtain ⟨ty, item, qty, loc, pos⟩ := step
  simp only [stepValid] at h
  simp only [executeCraftingStep]
  split at h
  · simp only [Bool.not_eq_true'] at h
    simp [h]
  · simp only [Bool.not_eq_true'] at h
    simp [h]
  · simp only [Bool.not_eq_true'] at h
    simp [h]
  · cases loc with
    | some l =>
        obtain ⟨p, hp⟩ := Option.isSome_iff_exists.mp h
        simp [hp]
    | none =>
        cases pos with
        | some p => simp
        | none => simp
  · exact absurd h (by simp)

/-- After `k` consecutive successful iterations starting at position `i`, the
loop sits at `i + k` with the published progress
`jsProgress (i + k) totalSteps`. -/
theorem cycleLoop_progress (steps : List CraftingStep)
    (hsteps : ∀ s ∈ steps, stepValid s = true) :
    ∀ (inputs : List IterInput) (i : Nat) (st : Option CraftingStats),
      (∀ inp ∈ inputs, inp.apiThrows = false ∧
        ∃ c2, inp.character = some c2 ∧ inventoryTotal c2 < 100) →
      i + inputs.length ≤ steps.length →
      (cycleLoop steps ⟨i, st⟩ inputs).2 = false ∧
      (cycleLoop steps ⟨i, st⟩ inputs).1.currentStep = i + inputs.length ∧
      (inputs ≠ [] →
        statsProgress (cycleLoop steps ⟨i, st⟩ inputs).1.stats =
          jsProgress (i + inputs.length) steps.length) := by
  intro inputs
  induction inputs with
  | nil =>
      intro i st _ _
      exact ⟨rfl, by simp [cycleLoop], fun h => absurd rfl h⟩
  | cons inp rest ih =>
      intro i st hin hlen
      obtain ⟨hthrow, c2, hcc, hlt⟩ := hin inp (List.mem_cons_self _ _)
      have hi : i < steps.length := by
        simp only [List.length_cons] at hlen
        omega
      have hstep : stepValid (steps.getD i defaultStep) = true := by
        rw [List.getD_eq_getElem steps defaultStep hi]
        exact hsteps _ (List.getElem_mem hi)
      have hsucc := exec_valid_success (steps.getD i defaultStep) c2 st hstep
      set ns := applyCraftingStatsO
          (executeCraftingStep (steps.getD i defaultStep) c2 false st).stats
          { noCraftingUpdates with
            cycleProgress := some (jsProgress (i + 1) steps.length) }
        with hns
      have hiter : cycleIter steps ⟨i, st⟩ inp =
          ⟨⟨i + 1, ns⟩, false,
            (executeCraftingStep (steps.getD i defaultStep) c2 false st).actions,
            (executeCraftingStep (steps.getD i defaultStep) c2 false st).logs, 0⟩ := by
        simp only [cycleIter, hcc]
        rw [if_neg (by omega), hthrow, if_pos hsucc, hns]
      have hloop : cycleLoop steps ⟨i, st⟩ (inp :: rest) =
          cycleLoop steps ⟨i + 1, ns⟩ rest := by
        simp only [cycleLoop]
        rw [if_pos hi, hiter]
        rfl
      rw [hloop]
      by_cases hrest : rest = []
      · subst hrest
        refine ⟨rfl, by simp [cycleLoop], fun _ => ?_⟩
        simp only [cycleLoop, List.length_cons, List.length_nil, hns]
        rfl
      · have hr := ih (i + 1) ns
          (fun x hx => hin x (List.mem_cons_of_mem _ hx))
          (by simp only [List.length_cons] at hlen; omega)
        have hlensum : i + 1 + rest.length = i + (inp :: rest).length := by
          simp only [List.length_cons]
          omega
        refine ⟨hr.1, ?_, fun _ => ?_⟩
        · rw [hr.2.1, hlensum]
        · rw [hr.2.2 hrest, hlensum]

/-- A fifty-step cycle of valid bank moves. -/
def steps50 : List CraftingStep := List.replicate 50 demoMoveStep

/-- C5 counterexample: the source evaluates `(currentStep/totalSteps)*100`
in binary64, so after the 29th success of a 50-step cycle it publishes
`Math.floor(57.99999999999999) = 57`, not the claimed
`floor(29/50*100) = 58`. -/
theorem c5_float_floor_counterexample :
    (∀ s ∈ steps50, stepValid s = true) ∧
    steps50.length = 50 ∧
    (cycleIter steps50 ⟨28, some emptyCraftingStats⟩
        ⟨some sampleCharacter, false⟩).state.currentStep = 29 ∧
    statsProgress (cycleIter steps50 ⟨28, some emptyCraftingStats⟩
        ⟨some sampleCharacter, false⟩).state.stats = 57 ∧
    Int.floor ((29 : Rat) / 50 * 100) = 58 := by
  refine ⟨by decide, by decide, by decide, by decide, ?_⟩
  have h : ((29 : Rat) / 50 * 100) = ((58 : Int) : Rat) := by norm_num
  rw [h]
  exact Int.floor_intCast 58

/-- C5 (amended): with every step of the cycle valid, `k` consecutive
successful iterations starting from a fresh pass put the loop at step `k`
with progress `Math.floor((k/N)*100)` as binary64 arithmetic evaluates it
(`jsProgress k N`, one less than the exact `floor(k·100/N)` at some inputs,
e.g. 57 instead of 58 at k = 29, N = 50); a full pass of `N` successes ends
with progress reset to 0, and the next `executeCraftingCycle` invocation of
the outer loop restarts at step 0 with the carried stats. -/
theorem c5_cycle_progress (steps : List CraftingStep) (st : Option CraftingStats)
    (inputs : List IterInput)
    (hsteps : ∀ s ∈ steps, stepValid s = true)
    (hin : ∀ inp ∈ inputs, inp.apiThrows = false ∧
      ∃ c2, inp.character = some c2 ∧ inventoryTotal c2 < 100)
    (hlen : inputs.length ≤ steps.length) :
    (cycleLoop steps ⟨0, st⟩ inputs).1.currentStep = inputs.length ∧
    (inputs ≠ [] →
      statsProgress (cycleLoop steps ⟨0, st⟩ inputs).1.stats =
        jsProgress inputs.length steps.length) ∧
    (inputs.length = steps.length →
      statsProgress (runCycle steps st inputs).1.stats = 0) ∧
    (∀ (st2 : Option CraftingStats) (pass : List IterInput)
        (more : List (List IterInput)),
      craftRun steps st2 (pass :: more) =
        craftRun steps (runCycle steps st2 pass).1.stats more) := by
  have H := cycleLoop_progress steps hsteps inputs 0 st hin (by omega)
  refine ⟨by rw [H.2.1]; omega, fun hne => ?_, fun hfull => ?_,
    fun st2 pass more => rfl⟩
  · rw [H.2.2 hne, Nat.zero_add]
  · unfold runCycle
    rw [H.1]
    simp only [Bool.false_eq_true, if_false]
    unfold finalizeCycle
    rw [if_pos (by rw [H.2.1]; omega)]
    rfl

/-- C5 witness: one successful iteration of a valid two-step cycle reports
the binary64 progress `jsProgress 1 2`, which evaluates to 50, and the outer
craft loop re-enters the interpreter with the carried stats. -/
theorem c5_cycle_progress_witness :
    (∀ s ∈ demoSteps, stepValid s = true) ∧
    jsProgress 1 demoSteps.length = 50 ∧
    ((cycleLoop demoSteps ⟨0, none⟩ [⟨some sampleCharacter, false⟩]).1.currentStep = 1 ∧
      statsProgress (cycleLoop demoSteps ⟨0, none⟩ [⟨some sampleCharacter, false⟩]).1.stats =
        jsProgress 1 demoSteps.length ∧
      craftRun demoSteps none ([] :: []) =
        craftRun demoSteps (runCycle demoSteps none []).1.stats []) := by
  have hsteps : ∀ s ∈ demoSteps, stepValid s = true := by decide
  have hin : ∀ inp ∈ [IterInput.mk (some sampleCharacter) false],
      inp.apiThrows = false ∧ ∃ c2, inp.character = some c2 ∧ inventoryTotal c2 < 100 := by
    intro inp hinp
    simp only [List.mem_cons, List.not_mem_nil, or_false] at hinp
    subst hinp
    exact ⟨rfl, sampleCharacter, rfl, by decide⟩
  have T := c5_cycle_progress demoSteps none [⟨some sampleCharacter, false⟩]
    hsteps hin (by decide)
  exact ⟨hsteps, by decide, T.1, T.2.1 (by simp), T.2.2.2 none [] []⟩


/-! ### C6 — configuration replacement -/

theorem find?_delete {α : Type} (m : List (String × α)) (k : String) :
    (jsMapDelete m k).find? (fun p => p.1 = k) = none := by
  induction m with
  | nil => rfl
  | cons q m ih =>
      by_cases hq : q.1 = k
      · simp only [jsMapDelete, List.filter_cons] at ih ⊢
        rw [if_neg (by simp [hq])]
        exact ih
      · simp only [jsMapDelete, List.filter_cons] at ih ⊢
        rw [if_pos (by simpa using hq)]
        rw [List.find?_cons_of_neg _ (by simpa using hq)]
        exact ih

theorem count_eq_zero_of_find_none {α : Type} (m : List (String × α)) (k : String)
    (h : m.find? (fun p => p.1 = k) = none) : jsMapCount m k = 0 := by
  induction m with
  | nil => rfl
  | cons q m ih =>
      by_cases hq : q.1 = k
      · rw [List.find?_cons_of_pos _ (by simpa using hq)] at h
        exact absurd h (by simp)
      · rw [List.find?_cons_of_neg _ (by simpa using hq)] at h
        simpa [jsMapCount, List.filter_cons, hq] using ih h

theorem jsMapCount_delete {α : Type} (m : List (String × α)) (k : String) :
    jsMapCount (jsMapDelete m k) k = 0 :=
  count_eq_zero_of_find_none _ _ (find?_delete m k)

theorem find?_map_set {α : Type} (m : List (String × α)) (k : String) (v : α)
    (h : (m.find? (fun p => p.1 = k)).isSome = true) :
    (m.map (fun p => if p.1 = k then (k, v) else p)).find? (fun p => p.1 = k) =
      some (k, v) := by
  induction m with
  | nil => simp at h
  | cons q m ih =>
      by_cases hq : q.1 = k
      · simp [List.find?_cons, hq]
      · rw [List.find?_cons_of_neg _ (by simpa using hq)] at h
        rw [List.map_cons, if_neg hq,
          List.find?_cons_of_neg _ (by simpa using hq)]
        exact ih h

theorem jsMapGet_set_self {α : Type} (m : List (String × α)) (k : String) (v : α) :
    jsMapGet (jsMapSet m k v) k = some v := by
  unfold jsMapSet jsMapGet
  by_cases h : (m.find? (fun p => p.1 = k)).isSome = true
  · rw [if_pos h, find?_map_set m k v h]
    rfl
  · rw [if_neg h, List.find?_append]
    rw [Bool.not_eq_true] at h
    cases hf : m.find? (fun p => p.1 = k) with
    | some p => rw [hf] at h; exact absurd h (by simp)
    | none => simp [List.find?_cons]

theorem count_map_set {α : Type} (m : List (String × α)) (k : String) (v : α) :
    jsMapCount (m.map (fun p => if p.1 = k then (k, v) else p)) k =
      jsMapCount m k := by
  induction m with
  | nil => rfl
  | cons q m ih =>
      by_cases hq : q.1 = k
      · simpa [jsMapCount, List.filter_cons, hq] using ih
      · simpa [jsMapCount, List.filter_cons, hq] using ih

theorem jsMapCount_set_absent {α : Type} (m : List (String × α)) (k : String) (v : α)
    (h : m.find? (fun p => p.1 = k) = none) :
    jsMapCount (jsMapSet m k v) k = 1 := by
  have h0 : (m.filter fun p => p.1 = k) = [] :=
    List.length_eq_zero.mp (count_eq_zero_of_find_none m k h)
  rw [jsMapSet, if_neg (by simp [h])]
  simp [jsMapCount, List.filter_append, h0]

theorem jsMapCount_set_present {α : Type} (m : List (String × α)) (k : String) (v : α)
    (h : (m.find? (fun p => p.1 = k)).isSome = true) :
    jsMapCount (jsMapSet m k v) k = jsMapCount m k := by
  rw [jsMapSet, if_pos h]
  exact count_map_set m k v

theorem find?_isSome_of_get {α : Type} (m : List (String × α)) (k : String) (v : α)
    (h : jsMapGet m k = some v) : (m.find? (fun p => p.1 = k)).isSome = true := by
  unfold jsMapGet at h
  cases hf : m.find? (fun p => p.1 = k) with
  | none => rw [hf] at h; exact absurd h (by simp)
  | some p => rfl


/-- C6 (amended): update-config is a no-op for an unknown name; for a known
name the merged config always carries the manager's own API token, and —
provided the merged config keeps the character name (the partial either
omits the name or repeats it) — exactly one agent instance is registered
under that name afterwards, holding the merged config, and it is running iff
the old agent was running.  (A partial that *changes* the name registers the
new agent under the new name instead, see the counterexample.) -/
theorem c6_update_config (m : ManagerState) (name : String)
    (pc : PartialBotConfig) :
    (jsMapGet m.botsConfig name = none → updateBotConfig m name pc = m) ∧
    (∀ cur, jsMapGet m.botsConfig name = some cur →
      (mergeConfig cur pc m.apiToken).apiToken = m.apiToken ∧
      ((mergeConfig cur pc m.apiToken).characterName = name →
        jsMapCount (updateBotConfig m name pc).bots name = 1 ∧
        jsMapGet (updateBotConfig m name pc).bots name =
          some ⟨mergeConfig cur pc m.apiToken,
            { initialStatus with isRunning := wasRunningOf m name }⟩)) := by
  constructor
  · intro h
    simp only [updateBotConfig, h]
  · intro cur hcur
    refine ⟨rfl, fun hname => ?_⟩
    cases hw : wasRunningOf m name with
    | false =>
        simp only [updateBotConfig, hcur, hw, Bool.false_eq_true, if_false,
          createBot, hname]
        constructor
        · exact jsMapCount_set_absent _ _ _ (find?_delete _ _)
        · rw [jsMapGet_set_self]
          rfl
    | true =>
        have hb : ∃ bot, jsMapGet m.bots name = some bot := by
          unfold wasRunningOf at hw
          cases hbb : jsMapGet m.bots name with
          | none => rw [hbb] at hw; exact absurd hw (by simp)
          | some bot => exact ⟨bot, rfl⟩
        obtain ⟨bot, hbot⟩ := hb
        simp only [updateBotConfig, hcur, hw, if_true, createBot, stopBot,
          hbot, hname, startBot, jsMapGet_set_self, initialStatus,
          Bool.false_eq_true, if_false]
        constructor
        · rw [jsMapCount_set_present _ _ _
            (find?_isSome_of_get _ _ _ (jsMapGet_set_self _ _ _))]
          exact jsMapCount_set_absent _ _ _ (find?_delete _ _)
        · trivial


/-- C6 counterexample: a partial config that renames the character ("Psy" to
"Other") leaves zero agent instances registered under the known name the
call was made for — the recreated agent is registered under the new name,
while the old name keeps a config entry. -/
theorem c6_rename_counterexample :
    jsMapGet demoManager.botsConfig "Psy" = some demoConfig ∧
    jsMapCount (updateBotConfig demoManager "Psy" renamePc).bots "Psy" = 0 ∧
    jsMapGet (updateBotConfig demoManager "Psy" renamePc).bots "Other" =
      some ⟨mergeConfig demoConfig renamePc "mgrtok", initialStatus⟩ ∧
    jsMapGet (updateBotConfig demoManager "Psy" renamePc).botsConfig "Psy" =
      some (mergeConfig demoConfig renamePc "mgrtok") := by
  refine ⟨by decide, by decide, by decide, by decide⟩

/-- C6 witness: updating the running "Psy" agent's action kind to gather. -/
theorem c6_update_config_witness :
    jsMapGet demoRunning.botsConfig "Psy" = some demoConfig ∧
    (mergeConfig demoConfig demoPc demoRunning.apiToken).characterName = "Psy" ∧
    (mergeConfig demoConfig demoPc demoRunning.apiToken).apiToken = demoRunning.apiToken ∧
    (jsMapCount (updateBotConfig demoRunning "Psy" demoPc).bots "Psy" = 1 ∧
      jsMapGet (updateBotConfig demoRunning "Psy" demoPc).bots "Psy" =
        some ⟨mergeConfig demoConfig demoPc demoRunning.apiToken,
          { initialStatus with isRunning := wasRunningOf demoRunning "Psy" }⟩) :=
  ⟨by decide, by decide,
    ((c6_update_config demoRunning "Psy" demoPc).2 demoConfig (by decide)).1,
    ((c6_update_config demoRunning "Psy" demoPc).2 demoConfig (by decide)).2 (by decide)⟩

end Artifacts
